import Mathlib

/-!
Shallow embedding of the plantbox simulation core (src/board.rs, src/plant.rs,
src/map.rs) and proofs about the claims of its specification.

Modelling conventions:
* Rust i64 values are modelled as Lean Int.  Where the behaviour under
  over/underflow is itself the subject of a claim (Effect::append_to_section)
  the addition is wrapped to the i64 range explicitly (wrap64); elsewhere the
  claims only concern values far away from the i64 boundaries and plain Int
  arithmetic is used.
* Rust f64 random draws and probability fields are modelled as rationals; the
  f64 literal 0.8 in the maturity test is modelled as 4/5 (for the integer
  sizes involved the correctly rounded f64 comparison and the exact rational
  comparison agree on every instance used by a claim).
* Functions that can panic (gen_range over an empty range, reduce_row on a
  non-divisible length) return Option, with none marking the panic.
* Randomness (thread_rng / StdRng) is modelled by an explicit Oracle record
  holding the draws a single evolve call can make.
-/

namespace Plantbox

/-- Wrap an unbounded integer into the two's-complement i64 range,
mirroring release-mode overflow semantics of Rust integer addition. -/
def wrap64 (n : Int) : Int := (n + 2 ^ 63) % 2 ^ 64 - 2 ^ 63

/-- Rust i64::checked_sub followed by unwrap_or(0): the subtraction result is
kept whenever it fits in i64 (even when negative); only on i64 overflow does
the checked subtraction yield None and the unwrap produce 0. -/
def checkedSubOr0 (a b : Int) : Int :=
  if -(2 ^ 63) ≤ a - b ∧ a - b ≤ 2 ^ 63 - 1 then a - b else 0

/-- Rust cast of an f64 value to i64: truncation toward zero, saturating at
the i64 bounds.  The f64 value itself is modelled as a rational. -/
def ratToI64 (q : ℚ) : Int :=
  let t : Int := if 0 ≤ q then ⌊q⌋ else ⌈q⌉
  if t < -(2 ^ 63) then -(2 ^ 63)
  else if 2 ^ 63 - 1 < t then 2 ^ 63 - 1
  else t

/-- board.rs: Location. -/
@[ext]
structure Location where
  max : Int
  x : Int
  y : Int
deriving Repr, DecidableEq

/-- board.rs: Conditions. -/
structure Conditions where
  light : Int
  moisture : Int
  oxygen : Int
deriving Repr, DecidableEq

/-- board.rs: BoardSection. -/
structure BoardSection where
  conditions : Conditions
  location : Location
deriving Repr, DecidableEq

/-- board.rs: Board. -/
structure Board where
  matrix : List (List BoardSection)
  size : Int
deriving Repr, DecidableEq

/-- board.rs: Effect. -/
inductive Effect where
  | Light (v : Int)
  | Moisture (v : Int)
  | Oxygen (v : Int)
deriving Repr, DecidableEq

/-- board.rs: Effect::append_to_section.  The Rust code adds with plain
i64 += (wrapping in release builds); there is no clamping of any kind. -/
def Effect.append_to_section (e : Effect) (s : BoardSection) : BoardSection :=
  match e with
  | Effect.Light v =>
      { s with conditions := { s.conditions with light := wrap64 (s.conditions.light + v) } }
  | Effect.Moisture v =>
      { s with conditions := { s.conditions with moisture := wrap64 (s.conditions.moisture + v) } }
  | Effect.Oxygen _ => s

/-- board.rs: Effect::append_global, appending to every cell of the board. -/
def Effect.append_global (e : Effect) (b : Board) : Board :=
  { b with matrix := b.matrix.map (fun row => row.map (fun s => e.append_to_section s)) }

/-- board.rs: Effect::apply_to_section (overwrite one field). -/
def Effect.apply_to_section (e : Effect) (s : BoardSection) : BoardSection :=
  match e with
  | Effect.Light v => { s with conditions := { s.conditions with light := v } }
  | Effect.Moisture v => { s with conditions := { s.conditions with moisture := v } }
  | Effect.Oxygen _ => s

/-- board.rs: Location::nearby.  The eight Moore candidates are generated in
the code's push order (lower-left, then around the ring), then filtered by
two retain passes: first both coordinates non-negative, then both at most
max. -/
def Location.nearby (l : Location) : List Location :=
  let candidates : List Location :=
    [⟨l.max, l.x - 1, l.y - 1⟩, ⟨l.max, l.x, l.y - 1⟩, ⟨l.max, l.x + 1, l.y - 1⟩,
     ⟨l.max, l.x + 1, l.y⟩, ⟨l.max, l.x + 1, l.y + 1⟩, ⟨l.max, l.x, l.y + 1⟩,
     ⟨l.max, l.x - 1, l.y + 1⟩, ⟨l.max, l.x - 1, l.y⟩]
  ((candidates.filter (fun c => !decide (c.x < 0) && !decide (c.y < 0))).filter
    (fun c => decide (c.x ≤ l.max) && decide (c.y ≤ l.max)))

/-- The inclusive integer range lo..=hi collected into a list. -/
def intRange (lo hi : Int) : List Int :=
  (List.range (hi + 1 - lo).toNat).map (fun i : Nat => lo + (i : Int))

/-- board.rs: the min_max closure inside Location::within_range: clamp the
inclusive range centered at v with the given radius to the board. -/
def clampedAxis (v range mx : Int) : List Int :=
  let min := if v - range < 0 then 0 else v - range
  let max := if mx < v + range then mx else v + range
  intRange min max

/-- board.rs: Location::within_range — the clipped Chebyshev square around
the location, excluding the location itself. -/
def Location.within_range (l : Location) (range : Int) : List Location :=
  (clampedAxis l.x range l.max).flatMap (fun x =>
    (clampedAxis l.y range l.max).filterMap (fun y =>
      if l.x = x ∧ l.y = y then none else some ⟨l.max, x, y⟩))

/-- plant.rs: PlantKind. -/
inductive PlantKind where
  | Fern
  | Tree
deriving Repr, DecidableEq

/-- Rust Debug formatting of a PlantKind, as used by the perish message. -/
def PlantKind.debugFmt : PlantKind → String
  | PlantKind.Fern => "Fern"
  | PlantKind.Tree => "Tree"

/-- plant.rs: Requirements. -/
structure Requirements where
  light : Effect
  moisture : Effect
deriving Repr, DecidableEq

/-- The non-recursive fields of plant.rs Plant, in source order.  The
recursive offspring vector lives in the Plant wrapper below, because a Lean
structure cannot mention itself.  Probability fields (f64 in Rust) are
rationals here. -/
structure PlantCore where
  age : Int
  age_max : Int
  flammability_chance : ℚ
  health : Int
  health_max : Int
  kind : PlantKind
  location : Location
  messages : List String
  offspring_chance : ℚ
  offspring_range : Int
  on_fire : Bool
  requirements : Requirements
  size : Int
  size_max : Int
deriving Repr, DecidableEq

/-- plant.rs: Plant = its scalar fields plus the recursive offspring buffer. -/
inductive Plant where
  | mk (core : PlantCore) (offspring : List Plant)

def Plant.core : Plant → PlantCore
  | Plant.mk c _ => c

def Plant.offspring : Plant → List Plant
  | Plant.mk _ o => o

/-- Replace the scalar fields, keeping the offspring buffer. -/
def Plant.withCore (p : Plant) (c : PlantCore) : Plant := Plant.mk c p.offspring

/-- Replace the offspring buffer, keeping the scalar fields. -/
def Plant.setOffspring (p : Plant) (os : List Plant) : Plant := Plant.mk p.core os

def Plant.age (p : Plant) : Int := p.core.age
def Plant.age_max (p : Plant) : Int := p.core.age_max
def Plant.flammability_chance (p : Plant) : ℚ := p.core.flammability_chance
def Plant.health (p : Plant) : Int := p.core.health
def Plant.health_max (p : Plant) : Int := p.core.health_max
def Plant.kind (p : Plant) : PlantKind := p.core.kind
def Plant.location (p : Plant) : Location := p.core.location
def Plant.messages (p : Plant) : List String := p.core.messages
def Plant.offspring_chance (p : Plant) : ℚ := p.core.offspring_chance
def Plant.offspring_range (p : Plant) : Int := p.core.offspring_range
def Plant.on_fire (p : Plant) : Bool := p.core.on_fire
def Plant.requirements (p : Plant) : Requirements := p.core.requirements
def Plant.size (p : Plant) : Int := p.core.size
def Plant.size_max (p : Plant) : Int := p.core.size_max

/-- One evolve call draws at most: one f64 for fire damage, one f64 for the
reproduction roll, and one index for the propagation placement.  An Oracle
fixes those draws so the state transition becomes a function. -/
structure Oracle where
  fireRoll : ℚ
  spawnRoll : ℚ
  pickIdx : Nat

/-- plant.rs: Lifespan::alive for Plant — health strictly positive. -/
def Plant.alive (p : Plant) : Bool := decide (0 < p.health)

/-- plant.rs: Lifespan::damage for Plant — checked_sub + unwrap_or(0). -/
def Plant.damage (p : Plant) (damage : Int) : Plant :=
  p.withCore { p.core with health := checkedSubOr0 p.health damage }

/-- plant.rs: Lifespan::grow for Plant — health and size each increment by 1
while strictly below their max. -/
def Plant.grow (p : Plant) : Plant :=
  let p1 := if p.health < p.health_max
    then p.withCore { p.core with health := p.health + 1 } else p
  if p1.size < p1.size_max
    then p1.withCore { p1.core with size := p1.size + 1 } else p1

/-- plant.rs lines 240-257: the fresh seedling built inside propagate from
the parent's kind-derived parameters and a chosen location (field order as
in the source). -/
def Plant.sprout (p : Plant) (location : Location) : Plant :=
  Plant.mk
    { age := 0
      flammability_chance := p.flammability_chance
      health := 1
      health_max := p.health_max
      kind := p.kind
      location := location
      age_max := p.age_max
      messages := []
      offspring_chance := p.offspring_chance
      offspring_range := p.offspring_range
      on_fire := false
      requirements := p.requirements
      size := 1
      size_max := p.size_max } []

/-- plant.rs: Lifespan::propagate for Plant.  Candidate locations come from
nearby() when offspring_range == 1 and within_range(offspring_range)
otherwise; one candidate is picked at random (none models the gen_range
panic on an empty candidate list) and num copies of a fresh seedling are
placed there. -/
def Plant.propagate (p : Plant) (o : Oracle) (num : Int) : Option (List Plant) :=
  let locations := if p.offspring_range = 1 then p.location.nearby
    else p.location.within_range p.offspring_range
  if locations.length = 0 then none
  else
    let location := locations.getD (o.pickIdx % locations.length) ⟨0, 0, 0⟩
    some (List.replicate num.toNat (p.sprout location))

/-- plant.rs line 161 (self.age += 1): the age increment at the top of
biology, factored out as a named step. -/
def Plant.agedOnce (p : Plant) : Plant :=
  p.withCore { p.core with age := p.age + 1 }

/-- plant.rs lines 173-175: the fire damage applied to a burning plant.
The f64 expression (health_max as f64 * U) * 0.1 followed by the as i64
cast is modelled over the rationals. -/
def Plant.fireDamaged (p : Plant) (o : Oracle) : Plant :=
  p.damage (ratToI64 ((p.health_max : ℚ) * o.fireRoll * (1 / 10)))

/-- plant.rs lines 182-207: the respiration block of biology (the
if-let on requirements.moisture), factored out as a named step.  The
maturity test size / size_max > 0.8 is modelled over the rationals; none
models the gen_range panic inside propagate. -/
def Plant.respire (p1 : Plant) (s : BoardSection) (o : Oracle) :
    Option (Plant × BoardSection) :=
  match p1.requirements.moisture with
  | Effect.Moisture v =>
    if v ≤ s.conditions.moisture ∧ p1.on_fire = false then
      let s1 := { s with conditions := { s.conditions with
        moisture := s.conditions.moisture - v } }
      let p2 := p1.grow
      if (4 : ℚ) / 5 < (p2.size : ℚ) / (p2.size_max : ℚ) then
        if o.spawnRoll < p2.offspring_chance then
          match p2.propagate o 1 with
          | some os => some (p2.setOffspring os, s1)
          | none => none
        else
          some (p2.setOffspring [], s1)
      else
        some (p2.damage 1, { s1 with conditions := { s1.conditions with
          moisture := 0 } })
    else
      some (p1, s)
  | _ => some (p1, s)

/-- plant.rs: Lifespan::biology for Plant.  Returns the updated plant, the
updated section, and the Rust function's Option return value (always None
in the source); the outer Option is none exactly when the call would panic
(empty candidate list in propagate). -/
def Plant.biology (p0 : Plant) (s : BoardSection) (o : Oracle) :
    Option (Plant × BoardSection × Option (List Plant)) :=
  let p := p0.agedOnce
  if p.alive then
    if p.age_max < p.age then
      some (p.withCore { p.core with health := 0 }, s, none)
    else
      let p1 := if p.on_fire then p.fireDamaged o else p
      if p.on_fire ∧ p1.alive = false then
        some (p1, s, none)
      else
        match p1.respire s o with
        | some (q, t) => some (q, t, none)
        | none => none
  else
    some (p, s, none)

/-- plant.rs: Evolve::evolve for Plant — run biology, push any returned
offspring onto the buffer, and push a perish message when health dropped to
zero during this call. -/
def Plant.evolve (p : Plant) (s : BoardSection) (o : Oracle) :
    Option (Plant × BoardSection) :=
  match p.biology s o with
  | none => none
  | some (p1, s1, off) =>
    let p2 := match off with
      | some os => p1.setOffspring (p1.offspring ++ os)
      | none => p1
    let p3 := if p2.health = 0 ∧ ¬p.health = 0 then
        p2.withCore { p2.core with
          messages := p2.messages ++ ["The " ++ p2.kind.debugFmt ++ " perishes"] }
      else p2
    some (p3, s1)

/-- Split a list into contiguous chunks of n+1 elements (the last chunk may
be shorter), as Rust slice::chunks does for a positive chunk size.  The
parameter is the chunk size minus one so that termination is structural. -/
def chunksAux (n : Nat) : List Char → List (List Char)
  | [] => []
  | x :: xs => ((x :: xs).take (n + 1)) :: chunksAux n ((x :: xs).drop (n + 1))
termination_by l => l.length
decreasing_by simp [List.length_drop]; omega

/-- map.rs: the per-chunk reduction inside Map::reduce_row.  The chunk is
compared against a string of scale background glyphs; otherwise the rock
glyph wins if present among the non-background characters, else the first
non-background character (with an unreachable X fallback). -/
def reduceBlock (scale : Nat) (g : List Char) : Char :=
  if g = List.replicate scale '⬛' then '⬛'
  else
    let initials := g.filter (fun c => c != '⬛')
    if initials.contains '🪨' then '🪨'
    else
      match initials.head? with
      | some c => c
      | none => 'X'

/-- map.rs: Map::reduce_row (self is unused by the Rust method).  none
models the panic on a row length that scale does not divide; a
non-positive scale is also a panic (chunks(0) aborts, and a negative scale
cast to usize makes the divisibility check fail for every non-empty row). -/
def reduce_row (row : List Char) (scale : Int) : Option (List Char) :=
  if scale ≤ 0 then none
  else if row.length % scale.toNat ≠ 0 then none
  else some ((chunksAux (scale.toNat - 1) row).map (reduceBlock scale.toNat))

/-- Modelled from the spec words for C7 (the reference behaviour a block
should follow): background iff the whole block is background, otherwise
rock if any cell of the block holds the rock glyph, otherwise the first
non-background glyph in block order. -/
def specBlock (g : List Char) : Char :=
  if g.all (fun c => c == '⬛') then '⬛'
  else if g.any (fun c => c == '🪨') then '🪨'
  else (g.filter (fun c => c != '⬛')).headI

/-- A concrete Fern-parameter plant scalar record used by the concrete
instances below (parameters as built by Plant::new for PlantKind::Fern,
placed at the interior cell (1,1) of a 3x3 board). -/
def fernCore : PlantCore :=
  { age := 0, age_max := 12, flammability_chance := 99996 / 100000, health := 1,
    health_max := 10, kind := PlantKind.Fern, location := ⟨2, 1, 1⟩, messages := [],
    offspring_chance := 1 / 5, offspring_range := 1, on_fire := false,
    requirements := ⟨Effect.Light 20, Effect.Moisture 2⟩, size := 1, size_max := 8 }

/-- A fresh Fern seedling (age 0, health 1, size 1, empty buffers). -/
def fernSeedling : Plant := Plant.mk fernCore []

/-- A Fern one growth increment below the maturity threshold:
size 6 of size_max 8, so size divided by size_max is 0.75. -/
def fernSixEights : Plant := Plant.mk { fernCore with size := 6, health := 5 } []

/-- A board cell at (1,1) of a 3x3 board holding the given moisture. -/
def cellWithMoisture (m : Int) : BoardSection := ⟨⟨70, m, 0⟩, ⟨2, 1, 1⟩⟩

/-- A fixed random outcome: fire roll 0, reproduction roll 1/10 (a success
against offspring_chance 1/5), placement pick 0. -/
def oracleHit : Oracle := ⟨0, 1 / 10, 0⟩

/-- A cell with zero moisture used by the C3 counterexample. -/
def dryCell : BoardSection := ⟨⟨0, 0, 0⟩, ⟨2, 0, 0⟩⟩

/-- A mature Fern: size 7 of size_max 8 (7/8 > 0.8), health 5. -/
def fernMature : Plant := Plant.mk { fernCore with size := 7, health := 5 } []

theorem intRange_eq (lo hi : Int) : intRange lo hi = Int.range lo (hi + 1) := by
  unfold intRange Int.range
  rfl

theorem mem_intRange {lo hi a : Int} : a ∈ intRange lo hi ↔ lo ≤ a ∧ a ≤ hi := by
  rw [intRange_eq, Int.mem_range_iff]
  omega

theorem mem_nearby_iff (l c : Location) :
    c ∈ l.nearby ↔
      c.max = l.max ∧ 0 ≤ c.x ∧ 0 ≤ c.y ∧ c.x ≤ l.max ∧ c.y ≤ l.max ∧
      l.x - 1 ≤ c.x ∧ c.x ≤ l.x + 1 ∧ l.y - 1 ≤ c.y ∧ c.y ≤ l.y + 1 ∧
      ¬(c.x = l.x ∧ c.y = l.y) := by
  simp only [Location.nearby, List.mem_filter, List.mem_cons, List.not_mem_nil, or_false,
    Bool.and_eq_true, Bool.not_eq_true', decide_eq_false_iff_not, decide_eq_true_eq,
    Location.ext_iff]
  constructor
  · rintro ⟨⟨h, hneg⟩, hmax⟩
    omega
  · intro h
    omega

theorem ite_neg_zero_eq_max (a : Int) : (if a < 0 then 0 else a) = max 0 a := by
  split <;> omega

theorem ite_over_eq_min (m a : Int) : (if m < a then m else a) = min m a := by
  split <;> omega

theorem mem_within_range_iff (l : Location) (r : Int) (c : Location) :
    c ∈ l.within_range r ↔
      c.max = l.max ∧
      max 0 (l.x - r) ≤ c.x ∧ c.x ≤ min l.max (l.x + r) ∧
      max 0 (l.y - r) ≤ c.y ∧ c.y ≤ min l.max (l.y + r) ∧
      ¬(l.x = c.x ∧ l.y = c.y) := by
  simp only [Location.within_range, clampedAxis, List.mem_flatMap, List.mem_filterMap,
    mem_intRange, Option.ite_none_left_eq_some, Option.some.injEq, ite_neg_zero_eq_max,
    ite_over_eq_min, Location.ext_iff]
  constructor
  · rintro ⟨x, hx, y, hy, hne, hmax, hxx, hyy⟩
    refine ⟨hmax.symm, ?_, ?_, ?_, ?_, ?_⟩ <;> omega
  · rintro ⟨hmax, hx1, hx2, hy1, hy2, hne⟩
    refine ⟨c.x, ⟨hx1, hx2⟩, c.y, ⟨hy1, hy2⟩, hne, hmax.symm, rfl, rfl⟩

@[simp] theorem core_mk (c : PlantCore) (os : List Plant) : (Plant.mk c os).core = c := rfl

@[simp] theorem offspring_mk (c : PlantCore) (os : List Plant) : (Plant.mk c os).offspring = os := rfl

@[simp] theorem age_def (p : Plant) : p.age = p.core.age := rfl

@[simp] theorem age_max_def (p : Plant) : p.age_max = p.core.age_max := rfl

@[simp] theorem flammability_chance_def (p : Plant) : p.flammability_chance = p.core.flammability_chance := rfl

@[simp] theorem health_def (p : Plant) : p.health = p.core.health := rfl

@[simp] theorem health_max_def (p : Plant) : p.health_max = p.core.health_max := rfl

@[simp] theorem kind_def (p : Plant) : p.kind = p.core.kind := rfl

@[simp] theorem location_def (p : Plant) : p.location = p.core.location := rfl

@[simp] theorem messages_def (p : Plant) : p.messages = p.core.messages := rfl

@[simp] theorem offspring_chance_def (p : Plant) : p.offspring_chance = p.core.offspring_chance := rfl

@[simp] theorem offspring_range_def (p : Plant) : p.offspring_range = p.core.offspring_range := rfl

@[simp] theorem on_fire_def (p : Plant) : p.on_fire = p.core.on_fire := rfl

@[simp] theorem requirements_def (p : Plant) : p.requirements = p.core.requirements := rfl

@[simp] theorem size_def (p : Plant) : p.size = p.core.size := rfl

@[simp] theorem size_max_def (p : Plant) : p.size_max = p.core.size_max := rfl

@[simp] theorem withCore_core (p : Plant) (c : PlantCore) : (p.withCore c).core = c := rfl

@[simp] theorem withCore_offspring (p : Plant) (c : PlantCore) : (p.withCore c).offspring = p.offspring := rfl

@[simp] theorem setOffspring_core (p : Plant) (os : List Plant) : (p.setOffspring os).core = p.core := rfl

@[simp] theorem setOffspring_offspring (p : Plant) (os : List Plant) : (p.setOffspring os).offspring = os := rfl

@[simp] theorem alive_def (p : Plant) : p.alive = decide (0 < p.core.health) := rfl

@[simp] theorem damage_core (p : Plant) (d : Int) :
    (p.damage d).core = { p.core with health := checkedSubOr0 p.core.health d } := rfl

@[simp] theorem damage_offspring (p : Plant) (d : Int) : (p.damage d).offspring = p.offspring := rfl

@[simp] theorem agedOnce_core (p : Plant) :
    (p.agedOnce).core = { p.core with age := p.core.age + 1 } := rfl

@[simp] theorem agedOnce_offspring (p : Plant) : (p.agedOnce).offspring = p.offspring := rfl

@[simp] theorem fireDamaged_core (p : Plant) (o : Oracle) :
    (p.fireDamaged o).core = { p.core with
      health := checkedSubOr0 p.core.health
        (ratToI64 ((p.core.health_max : ℚ) * o.fireRoll * (1 / 10))) } := rfl

@[simp] theorem fireDamaged_offspring (p : Plant) (o : Oracle) :
    (p.fireDamaged o).offspring = p.offspring := rfl

@[simp] theorem grow_core (p : Plant) :
    p.grow.core = { p.core with
      health := if p.core.health < p.core.health_max then p.core.health + 1 else p.core.health,
      size := if p.core.size < p.core.size_max then p.core.size + 1 else p.core.size } := by
  by_cases h1 : p.core.health < p.core.health_max <;>
    by_cases h2 : p.core.size < p.core.size_max <;>
      simp [Plant.grow, h1, h2]

@[simp] theorem grow_offspring (p : Plant) : p.grow.offspring = p.offspring := by
  by_cases h1 : p.core.health < p.core.health_max <;>
    by_cases h2 : p.core.size < p.core.size_max <;>
      simp [Plant.grow, h1, h2]

/-- Inside the i64 range, wrapping addition is plain addition. -/
theorem wrap64_eq_self {n : Int} (h1 : -(2 ^ 63) ≤ n) (h2 : n < 2 ^ 63) :
    wrap64 n = n := by
  unfold wrap64
  omega

/-- C1: for an alive plant, not on fire, within its age limit, whose cell
moisture m is at least the required v, evolve claims to leave moisture
m - v and raise health and size by 1 each.  Evaluating the code on a fern
seedling (immature) with m = 5, v = 2 instead leaves moisture 0 (the cell
is zeroed) and health 1 (grown to 2, then damaged back by 1): the
respiration contract of the claim is violated by the immature branch. -/
theorem c1_respiration_eval :
    (fernSeedling.evolve (cellWithMoisture 5) oracleHit).map
      (fun r => (r.2.conditions.moisture, r.1.health, r.1.size)) = some (0, 1, 2) ∧
    ((0 : Int), (1 : Int), (2 : Int)) ≠ ((5 - 2 : Int), (1 + 1 : Int), (1 + 1 : Int)) := by
  constructor
  · norm_num [Plant.evolve, Plant.biology, Plant.respire, Plant.agedOnce,
      Plant.grow, Plant.damage, fernSeedling, fernCore, cellWithMoisture,
      oracleHit, checkedSubOr0]
  · decide

/-- C2: the claim says that with insufficient cell moisture (m strictly
below the required v) evolve zeroes the cell moisture and reduces health
by 1.  Evaluating the code on a fern seedling with m = 1 < v = 2 shows the
code leaves both the cell moisture and the health completely unchanged:
the insufficient-moisture branch of the claim does not exist in the code
(the zero-and-damage behaviour is instead attached to the immaturity test
under sufficient moisture). -/
theorem c2_insufficient_moisture_eval :
    (fernSeedling.evolve (cellWithMoisture 1) oracleHit).map
      (fun r => (r.2.conditions.moisture, r.1.health)) = some (1, 1) ∧
    ((1 : Int), (1 : Int)) ≠ ((0 : Int), (1 - 1 : Int)) := by
  constructor
  · norm_num [Plant.evolve, Plant.biology, Plant.respire, Plant.agedOnce,
      Plant.grow, Plant.damage, fernSeedling, fernCore, cellWithMoisture,
      oracleHit, checkedSubOr0]
  · decide

/-- C3 counterexample: append_to_section with Moisture(-1) on a cell whose
moisture is 0 leaves -1, not max(0, 0 + (-1)) = 0 — there is no clamping
at zero. -/
theorem c3_append_clamps_cex :
    ¬(((Effect.Moisture (-1)).append_to_section dryCell).conditions.moisture =
        max 0 (dryCell.conditions.moisture + (-1))) := by
  decide

/-- C3 amended: append_to_section with Light(d) (resp. Moisture(d)) sets the
targeted field to old_value + d exactly (two's-complement i64 addition; for
results inside the i64 range no clamping of any kind happens, and a
negative result stays negative), leaving the other field unchanged, and
append_global applies exactly the same per-cell update to every cell of
the board. -/
theorem c3_append_adds_exactly :
    (∀ (s : BoardSection) (d : Int),
      -(2 ^ 63) ≤ s.conditions.light + d → s.conditions.light + d < 2 ^ 63 →
      ((Effect.Light d).append_to_section s).conditions.light = s.conditions.light + d ∧
      ((Effect.Light d).append_to_section s).conditions.moisture = s.conditions.moisture) ∧
    (∀ (s : BoardSection) (d : Int),
      -(2 ^ 63) ≤ s.conditions.moisture + d → s.conditions.moisture + d < 2 ^ 63 →
      ((Effect.Moisture d).append_to_section s).conditions.moisture = s.conditions.moisture + d ∧
      ((Effect.Moisture d).append_to_section s).conditions.light = s.conditions.light) ∧
    (∀ (e : Effect) (b : Board) (i j : Nat),
      ((e.append_global b).matrix[i]?.getD [])[j]? =
        ((b.matrix[i]?.getD [])[j]?).map (fun s => e.append_to_section s)) := by
  refine ⟨?_, ?_, ?_⟩
  · intro s d h1 h2
    exact ⟨wrap64_eq_self h1 h2, rfl⟩
  · intro s d h1 h2
    exact ⟨wrap64_eq_self h1 h2, rfl⟩
  · intro e b i j
    unfold Effect.append_global
    simp only [List.getElem?_map]
    cases hrow : b.matrix[i]? with
    | none => simp [hrow]
    | some row => simp [hrow, List.getElem?_map]

/-- C3 amended witness at a concrete cell and delta. -/
theorem c3_append_adds_exactly_witness :
    ((Effect.Moisture (-1)).append_to_section dryCell).conditions.moisture =
      dryCell.conditions.moisture + (-1) ∧
    ((Effect.Moisture (-1)).append_to_section dryCell).conditions.light =
      dryCell.conditions.light :=
  c3_append_adds_exactly.2.1 dryCell (-1) (by decide) (by decide)

theorem nearby_len_corner00 (m : Int) (hm : 1 ≤ m) :
    (Location.mk m 0 0).nearby.length = 3 := by
  have f0 : (0 : Int) ≤ m := by omega
  simp [Location.nearby, f0, hm]

theorem nearby_len_corner0m (m : Int) (hm : 1 ≤ m) :
    (Location.mk m 0 m).nearby.length = 3 := by
  have f0 : (0 : Int) ≤ m := by omega
  have f1 : ¬(m - 1 < (0 : Int)) := by omega
  have f2 : (m - 1 : Int) ≤ m := by omega
  have f3 : ¬(m < (0 : Int)) := by omega
  have f4 : ¬(m + 1 ≤ m) := by omega
  simp [Location.nearby, f0, hm, f1, f2, f3, f4]

theorem nearby_len_cornerm0 (m : Int) (hm : 1 ≤ m) :
    (Location.mk m m 0).nearby.length = 3 := by
  have f0 : (0 : Int) ≤ m := by omega
  have f1 : ¬(m - 1 < (0 : Int)) := by omega
  have f2 : (m - 1 : Int) ≤ m := by omega
  have f3 : ¬(m < (0 : Int)) := by omega
  have f4 : ¬(m + 1 ≤ m) := by omega
  simp [Location.nearby, f0, hm, f1, f2, f3, f4]

theorem nearby_len_cornermm (m : Int) (hm : 1 ≤ m) :
    (Location.mk m m m).nearby.length = 3 := by
  have f1 : ¬(m - 1 < (0 : Int)) := by omega
  have f2 : (m - 1 : Int) ≤ m := by omega
  have f3 : ¬(m < (0 : Int)) := by omega
  have f4 : ¬(m + 1 ≤ m) := by omega
  simp [Location.nearby, f1, f2, f3, f4]

theorem nearby_len_edge_left (m y : Int) (h1 : 0 < y) (h2 : y < m) :
    (Location.mk m 0 y).nearby.length = 5 := by
  have f0 : (0 : Int) ≤ m := by omega
  have f1 : (1 : Int) ≤ m := by omega
  have g1 : ¬(y - 1 < (0 : Int)) := by omega
  have g2 : (y - 1 : Int) ≤ m := by omega
  have g3 : ¬(y + 1 < (0 : Int)) := by omega
  have g4 : (y + 1 : Int) ≤ m := by omega
  have g5 : ¬(y < (0 : Int)) := by omega
  have g6 : (y : Int) ≤ m := by omega
  simp [Location.nearby, f0, f1, g1, g2, g3, g4, g5, g6]

theorem nearby_len_edge_right (m y : Int) (h1 : 0 < y) (h2 : y < m) :
    (Location.mk m m y).nearby.length = 5 := by
  have f1 : ¬(m - 1 < (0 : Int)) := by omega
  have f2 : (m - 1 : Int) ≤ m := by omega
  have f3 : ¬(m < (0 : Int)) := by omega
  have f4 : ¬(m + 1 ≤ m) := by omega
  have g1 : ¬(y - 1 < (0 : Int)) := by omega
  have g2 : (y - 1 : Int) ≤ m := by omega
  have g3 : ¬(y + 1 < (0 : Int)) := by omega
  have g4 : (y + 1 : Int) ≤ m := by omega
  have g5 : ¬(y < (0 : Int)) := by omega
  have g6 : (y : Int) ≤ m := by omega
  simp [Location.nearby, f1, f2, f3, f4, g1, g2, g3, g4, g5, g6]

theorem nearby_len_edge_bottom (m x : Int) (h1 : 0 < x) (h2 : x < m) :
    (Location.mk m x 0).nearby.length = 5 := by
  have f0 : (0 : Int) ≤ m := by omega
  have f1 : (1 : Int) ≤ m := by omega
  have g1 : ¬(x - 1 < (0 : Int)) := by omega
  have g2 : (x - 1 : Int) ≤ m := by omega
  have g3 : ¬(x + 1 < (0 : Int)) := by omega
  have g4 : (x + 1 : Int) ≤ m := by omega
  have g5 : ¬(x < (0 : Int)) := by omega
  have g6 : (x : Int) ≤ m := by omega
  simp [Location.nearby, f0, f1, g1, g2, g3, g4, g5, g6]

theorem nearby_len_edge_top (m x : Int) (h1 : 0 < x) (h2 : x < m) :
    (Location.mk m x m).nearby.length = 5 := by
  have f1 : ¬(m - 1 < (0 : Int)) := by omega
  have f2 : (m - 1 : Int) ≤ m := by omega
  have f3 : ¬(m < (0 : Int)) := by omega
  have f4 : ¬(m + 1 ≤ m) := by omega
  have g1 : ¬(x - 1 < (0 : Int)) := by omega
  have g2 : (x - 1 : Int) ≤ m := by omega
  have g3 : ¬(x + 1 < (0 : Int)) := by omega
  have g4 : (x + 1 : Int) ≤ m := by omega
  have g5 : ¬(x < (0 : Int)) := by omega
  have g6 : (x : Int) ≤ m := by omega
  simp [Location.nearby, f1, f2, f3, f4, g1, g2, g3, g4, g5, g6]

theorem nearby_len_interior (m x y : Int) (h1 : 0 < x) (h2 : x < m)
    (h3 : 0 < y) (h4 : y < m) : (Location.mk m x y).nearby.length = 8 := by
  have f1 : ¬(x - 1 < (0 : Int)) := by omega
  have f2 : (x - 1 : Int) ≤ m := by omega
  have f3 : ¬(x + 1 < (0 : Int)) := by omega
  have f4 : (x + 1 : Int) ≤ m := by omega
  have f5 : ¬(x < (0 : Int)) := by omega
  have f6 : (x : Int) ≤ m := by omega
  have g1 : ¬(y - 1 < (0 : Int)) := by omega
  have g2 : (y - 1 : Int) ≤ m := by omega
  have g3 : ¬(y + 1 < (0 : Int)) := by omega
  have g4 : (y + 1 : Int) ≤ m := by omega
  have g5 : ¬(y < (0 : Int)) := by omega
  have g6 : (y : Int) ≤ m := by omega
  simp [Location.nearby, f1, f2, f3, f4, f5, f6, g1, g2, g3, g4, g5, g6]

/-- C5: for a Location on a board with max at least 2 and both coordinates
in range, nearby() returns exactly 3 locations at a board corner, exactly 5
on a non-corner board edge, and exactly 8 in the interior; every returned
location stays within the board and differs from the location itself. -/
theorem c5_nearby_counts (m x y : Int) (hm : 2 ≤ m) (hx0 : 0 ≤ x) (hxm : x ≤ m)
    (hy0 : 0 ≤ y) (hym : y ≤ m) :
    (((x = 0 ∨ x = m) ∧ (y = 0 ∨ y = m)) → (Location.mk m x y).nearby.length = 3) ∧
    (((x = 0 ∨ x = m ∨ y = 0 ∨ y = m) ∧ ¬((x = 0 ∨ x = m) ∧ (y = 0 ∨ y = m))) →
      (Location.mk m x y).nearby.length = 5) ∧
    ((0 < x ∧ x < m ∧ 0 < y ∧ y < m) → (Location.mk m x y).nearby.length = 8) ∧
    (∀ c ∈ (Location.mk m x y).nearby,
      0 ≤ c.x ∧ c.x ≤ m ∧ 0 ≤ c.y ∧ c.y ≤ m ∧ c ≠ Location.mk m x y) := by
  have hm1 : (1 : Int) ≤ m := by omega
  refine ⟨?_, ?_, ?_, ?_⟩
  · rintro ⟨hcx | hcx, hcy | hcy⟩ <;> rw [hcx, hcy]
    · exact nearby_len_corner00 m hm1
    · exact nearby_len_corner0m m hm1
    · exact nearby_len_cornerm0 m hm1
    · exact nearby_len_cornermm m hm1
  · rintro ⟨hedge, hnc⟩
    rcases hedge with hx | hx | hy | hy
    · rw [hx]
      exact nearby_len_edge_left m y (by omega) (by omega)
    · rw [hx]
      exact nearby_len_edge_right m y (by omega) (by omega)
    · rw [hy]
      exact nearby_len_edge_bottom m x (by omega) (by omega)
    · rw [hy]
      exact nearby_len_edge_top m x (by omega) (by omega)
  · rintro ⟨h1, h2, h3, h4⟩
    exact nearby_len_interior m x y h1 h2 h3 h4
  · intro c hc
    rw [mem_nearby_iff] at hc
    obtain ⟨hcm, h0x, h0y, hxm2, hym2, _, _, _, _, hne⟩ := hc
    refine ⟨h0x, hxm2, h0y, hym2, ?_⟩
    intro heq
    apply hne
    rw [heq]
    exact ⟨rfl, rfl⟩

/-- C5 witness: the corner, edge and interior counts at max = 2, evaluated
at the corner (0,0), together with the bounds clause, via the theorem
applied at concrete coordinates. -/
theorem c5_nearby_counts_witness :
    (((0 : Int) = 0 ∨ (0 : Int) = 2) ∧ ((0 : Int) = 0 ∨ (0 : Int) = 2) →
      (Location.mk 2 0 0).nearby.length = 3) ∧
    ((((0 : Int) = 0 ∨ (0 : Int) = 2 ∨ (0 : Int) = 0 ∨ (0 : Int) = 2) ∧
        ¬(((0 : Int) = 0 ∨ (0 : Int) = 2) ∧ ((0 : Int) = 0 ∨ (0 : Int) = 2))) →
      (Location.mk 2 0 0).nearby.length = 5) ∧
    ((0 < (0 : Int) ∧ (0 : Int) < 2 ∧ 0 < (0 : Int) ∧ (0 : Int) < 2) →
      (Location.mk 2 0 0).nearby.length = 8) ∧
    (∀ c ∈ (Location.mk 2 0 0).nearby,
      0 ≤ c.x ∧ c.x ≤ 2 ∧ 0 ≤ c.y ∧ c.y ≤ 2 ∧ c ≠ Location.mk 2 0 0) :=
  c5_nearby_counts 2 0 0 (by decide) (by decide) (by decide) (by decide) (by decide)

/-- C6: for every Location with in-range coordinates, within_range(1) and
nearby() agree as sets: membership is equivalent, irrespective of order. -/
theorem c6_within_range_one_eq_nearby (l : Location) (hx0 : 0 ≤ l.x)
    (hxm : l.x ≤ l.max) (hy0 : 0 ≤ l.y) (hym : l.y ≤ l.max) :
    ∀ c, c ∈ l.within_range 1 ↔ c ∈ l.nearby := by
  intro c
  rw [mem_within_range_iff, mem_nearby_iff]
  constructor
  · rintro ⟨h1, h2, h3, h4, h5, h6⟩
    refine ⟨h1, ?_, ?_, ?_, ?_, ?_, ?_, ?_, ?_, ?_⟩ <;> omega
  · rintro ⟨h1, h2, h3, h4, h5, h6, h7, h8, h9, h10⟩
    refine ⟨h1, ?_, ?_, ?_, ?_, ?_⟩ <;> omega

/-- C6 witness at the interior location (1,1) of a 3x3 board and the
neighbor (1,0). -/
theorem c6_within_range_one_eq_nearby_witness :
    (⟨2, 1, 0⟩ : Location) ∈ (⟨2, 1, 1⟩ : Location).within_range 1 ↔
      (⟨2, 1, 0⟩ : Location) ∈ (⟨2, 1, 1⟩ : Location).nearby :=
  c6_within_range_one_eq_nearby ⟨2, 1, 1⟩ (by decide) (by decide) (by decide)
    (by decide) ⟨2, 1, 0⟩

theorem nearby_length_pos (l : Location) (hm : 1 ≤ l.max) (hx0 : 0 ≤ l.x)
    (hxm : l.x ≤ l.max) (hy0 : 0 ≤ l.y) (hym : l.y ≤ l.max) :
    0 < l.nearby.length := by
  by_cases h1 : 1 ≤ l.x
  · have hmem : Location.mk l.max (l.x - 1) l.y ∈ l.nearby := by
      rw [mem_nearby_iff]
      dsimp only
      omega
    exact List.length_pos_of_mem hmem
  · have hmem : Location.mk l.max (l.x + 1) l.y ∈ l.nearby := by
      rw [mem_nearby_iff]
      dsimp only
      omega
    exact List.length_pos_of_mem hmem

theorem within_range_length_pos (l : Location) (r : Int) (hm : 1 ≤ l.max)
    (hx0 : 0 ≤ l.x) (hxm : l.x ≤ l.max) (hy0 : 0 ≤ l.y) (hym : l.y ≤ l.max)
    (hr : 1 ≤ r) : 0 < (l.within_range r).length := by
  by_cases h1 : 1 ≤ l.x
  · have hmem : Location.mk l.max (l.x - 1) l.y ∈ l.within_range r := by
      rw [mem_within_range_iff]
      dsimp only
      omega
    exact List.length_pos_of_mem hmem
  · have hmem : Location.mk l.max (l.x + 1) l.y ∈ l.within_range r := by
      rw [mem_within_range_iff]
      dsimp only
      omega
    exact List.length_pos_of_mem hmem

theorem propagate_isSome_of_candidates (p : Plant) (o : Oracle) (num : Int)
    (h : 0 < (if p.offspring_range = 1 then p.location.nearby
      else p.location.within_range p.offspring_range).length) :
    (p.propagate o num).isSome := by
  have hne : ¬((if p.offspring_range = 1 then p.location.nearby
      else p.location.within_range p.offspring_range).length = 0) := by omega
  unfold Plant.propagate
  dsimp only
  rw [if_neg hne]
  rfl

/-- C9: on a board with more than one cell (max at least 1) and a location
with in-range coordinates, nearby() and within_range(range) with range at
least 1 both return at least one candidate, and consequently propagate
never reaches its empty-candidate-list failure (the gen_range panic):
propagate always returns a value. -/
theorem c9_candidates_nonempty (m x y r : Int) (hm : 1 ≤ m) (hx0 : 0 ≤ x)
    (hxm : x ≤ m) (hy0 : 0 ≤ y) (hym : y ≤ m) (hr : 1 ≤ r) :
    1 ≤ (Location.mk m x y).nearby.length ∧
    1 ≤ ((Location.mk m x y).within_range r).length ∧
    ∀ (p : Plant) (o : Oracle) (num : Int),
      p.location = Location.mk m x y → p.offspring_range = r →
      (p.propagate o num).isSome := by
  refine ⟨nearby_length_pos _ hm hx0 hxm hy0 hym,
    within_range_length_pos _ r hm hx0 hxm hy0 hym hr, ?_⟩
  intro p o num hploc hprange
  apply propagate_isSome_of_candidates
  rw [hploc, hprange]
  by_cases h1 : r = 1
  · rw [if_pos h1]
    exact nearby_length_pos _ hm hx0 hxm hy0 hym
  · rw [if_neg h1]
    exact within_range_length_pos _ r hm hx0 hxm hy0 hym hr

/-- C9 witness on the 2x2 board at the corner (0,0) with range 1. -/
theorem c9_candidates_nonempty_witness :
    1 ≤ (Location.mk 1 0 0).nearby.length ∧
    1 ≤ ((Location.mk 1 0 0).within_range 1).length ∧
    ∀ (p : Plant) (o : Oracle) (num : Int),
      p.location = Location.mk 1 0 0 → p.offspring_range = 1 →
      (p.propagate o num).isSome :=
  c9_candidates_nonempty 1 0 0 1 (by decide) (by decide) (by decide) (by decide)
    (by decide) (by decide)

theorem chunksAux_eq (s : Nat) (hs : 0 < s) :
    ∀ (k : Nat) (row : List Char), row.length = k * s →
      chunksAux (s - 1) row = (List.range k).map (fun i => (row.drop (i * s)).take s) := by
  intro k
  induction k with
  | zero =>
    intro row hrow
    have hnil : row = [] := List.eq_nil_of_length_eq_zero (by omega)
    subst hnil
    simp [chunksAux]
  | succ k ih =>
    intro row hrow
    obtain ⟨x, xs, rfl⟩ : ∃ x xs, row = x :: xs := by
      cases row with
      | nil => simp at hrow; omega
      | cons a as => exact ⟨a, as, rfl⟩
    rw [chunksAux]
    have hs1 : s - 1 + 1 = s := by omega
    rw [hs1]
    have hlen : ((x :: xs).drop s).length = k * s := by
      rw [List.length_drop, hrow, Nat.add_mul, Nat.one_mul]
      omega
    rw [ih _ hlen]
    rw [List.range_succ_eq_map]
    simp only [List.map_cons, List.map_map]
    congr 1
    · simp
    · apply List.map_congr_left
      intro i hi
      simp only [Function.comp_apply]
      rw [List.drop_drop]
      congr 2
      rw [Nat.succ_mul]
      exact Nat.add_comm s (i * s)

theorem reduceBlock_eq_specBlock (s : Nat) (g : List Char) (hg : g.length = s)
    (hs : 0 < s) : reduceBlock s g = specBlock g := by
  unfold reduceBlock specBlock
  by_cases hall : ∀ c ∈ g, c = '⬛'
  · have hrep : g = List.replicate s '⬛' := List.eq_replicate_iff.mpr ⟨hg, hall⟩
    have hall2 : g.all (fun c => c == '⬛') = true := by
      rw [List.all_eq_true]
      intro c hc
      simpa using hall c hc
    rw [if_pos hrep, if_pos hall2]
  · have hrep : ¬(g = List.replicate s '⬛') := by
      intro hcontra
      apply hall
      intro c hc
      rw [hcontra] at hc
      exact List.eq_of_mem_replicate hc
    have hall2 : ¬(g.all (fun c => c == '⬛') = true) := by
      rw [List.all_eq_true]
      intro hcontra
      apply hall
      intro c hc
      simpa using hcontra c hc
    rw [if_neg hrep, if_neg hall2]
    by_cases hrock : '🪨' ∈ g
    · have hmemf : '🪨' ∈ g.filter (fun c => c != '⬛') := by
        rw [List.mem_filter]
        exact ⟨hrock, by decide⟩
      have h1 : (g.filter (fun c => c != '⬛')).contains '🪨' = true :=
        List.elem_iff.mpr hmemf
      have h2 : g.any (fun c => c == '🪨') = true := by
        rw [List.any_eq_true]
        exact ⟨'🪨', hrock, by decide⟩
      rw [if_pos h1, if_pos h2]
    · have h1 : ¬((g.filter (fun c => c != '⬛')).contains '🪨' = true) := by
        intro hcontra
        exact hrock (List.mem_filter.mp (List.elem_iff.mp hcontra)).1
      have h2 : ¬(g.any (fun c => c == '🪨') = true) := by
        rw [List.any_eq_true]
        rintro ⟨c, hc, hcrock⟩
        apply hrock
        have : c = '🪨' := by simpa using hcrock
        rwa [this] at hc
      rw [if_neg h1, if_neg h2]
      obtain ⟨c, hcg, hcbg⟩ : ∃ c ∈ g, ¬(c = '⬛') := by
        push_neg at hall
        exact hall
      have hcf : c ∈ g.filter (fun c => c != '⬛') := by
        simp only [List.mem_filter, decide_eq_true_eq]
        exact ⟨hcg, by simpa using hcbg⟩
      cases hne : g.filter (fun c => c != '⬛') with
      | nil =>
        rw [hne] at hcf
        exact absurd hcf (List.not_mem_nil c)
      | cons a t => rfl

/-- C7: for a glyph row whose length is a positive multiple of the scale,
reduce_row succeeds and maps the i-th contiguous block of scale cells to
exactly one output glyph, which is the background glyph iff every cell of
the block is background, else the rock glyph if the block contains it,
else the first non-background glyph of the block. -/
theorem c7_reduce_row_blocks (row : List Char) (scale : Int) (k : Nat)
    (hs : 0 < scale) (hk : 0 < k) (hlen : row.length = k * scale.toNat) :
    reduce_row row scale =
      some ((List.range k).map (fun i =>
        specBlock ((row.drop (i * scale.toNat)).take scale.toNat))) := by
  have hst : 0 < scale.toNat := by omega
  unfold reduce_row
  rw [if_neg (by omega)]
  rw [if_neg (by simp [hlen, Nat.mul_mod_left])]
  rw [chunksAux_eq scale.toNat hst k row hlen]
  rw [List.map_map]
  congr 1
  apply List.map_congr_left
  intro i hi
  simp only [Function.comp_apply]
  apply reduceBlock_eq_specBlock
  · rw [List.length_take, List.length_drop, hlen]
    rw [List.mem_range] at hi
    have h2 : i * scale.toNat + scale.toNat ≤ k * scale.toNat := by
      have h3 : (i + 1) * scale.toNat ≤ k * scale.toNat :=
        Nat.mul_le_mul_right scale.toNat (by omega)
      rw [Nat.add_mul, Nat.one_mul] at h3
      exact h3
    omega
  · exact hst

/-- C7 witness: a two-block row at scale 1. -/
theorem c7_reduce_row_blocks_witness :
    reduce_row ['⬛', '🌿'] 1 =
      some ((List.range 2).map (fun i =>
        specBlock (((['⬛', '🌿'] : List Char).drop (i * (1 : Int).toNat)).take
          (1 : Int).toNat))) :=
  c7_reduce_row_blocks ['⬛', '🌿'] 1 2 (by decide) (by decide) (by decide)

theorem respire_of_onfire (p1 : Plant) (s : BoardSection) (o : Oracle)
    (h : p1.core.on_fire = true) : p1.respire s o = some (p1, s) := by
  unfold Plant.respire
  split
  · rw [if_neg]
    rintro ⟨-, hfalse⟩
    simp only [on_fire_def, h] at hfalse
    exact Bool.noConfusion hfalse
  · rfl

theorem respire_immature (p1 : Plant) (s : BoardSection) (o : Oracle)
    (hpos : 0 < p1.core.size_max) (hq : 5 * (p1.core.size + 1) ≤ 4 * p1.core.size_max) :
    ∃ q t, p1.respire s o = some (q, t) ∧ q.offspring = p1.offspring := by
  have hsz : p1.core.size < p1.core.size_max := by omega
  unfold Plant.respire
  split
  · split
    · dsimp only
      rw [if_neg ?hmat]
      · exact ⟨_, _, rfl, by simp⟩
      case hmat =>
        simp only [not_lt, size_def, size_max_def, grow_core, if_pos hsz]
        rw [div_le_div_iff₀ (by exact_mod_cast hpos) (by norm_num)]
        have hq2 : (p1.core.size + 1) * 5 ≤ 4 * p1.core.size_max := by omega
        exact_mod_cast hq2
    · exact ⟨_, _, rfl, rfl⟩
  · exact ⟨_, _, rfl, rfl⟩

theorem biology_immature (p : Plant) (s : BoardSection) (o : Oracle)
    (hpos : 0 < p.core.size_max) (hq : 5 * (p.core.size + 1) ≤ 4 * p.core.size_max) :
    ∃ q t, p.biology s o = some (q, t, none) ∧ q.offspring = p.offspring := by
  unfold Plant.biology
  dsimp only
  split
  · split
    · exact ⟨_, _, rfl, rfl⟩
    · by_cases hof : (p.agedOnce).on_fire = true
      · rw [if_pos hof]
        split
        · exact ⟨_, _, rfl, by simp⟩
        · rw [respire_of_onfire ((p.agedOnce).fireDamaged o) s o (by simpa using hof)]
          exact ⟨_, _, rfl, by simp⟩
      · rw [if_neg hof]
        rw [if_neg (fun hc => hof hc.1)]
        obtain ⟨q, t, hresp, hoff⟩ := respire_immature (p.agedOnce) s o (by simpa using hpos)
          (by simp only [agedOnce_core]; omega)
        rw [hresp]
        exact ⟨q, t, rfl, by simpa using hoff⟩
  · exact ⟨_, _, rfl, rfl⟩

/-- C8 counterexample: a Fern of size 6 with size_max 8 has size divided by
size_max equal to 0.75, at most 0.8, yet under a favourable reproduction
roll its evolve produces one offspring: the maturity test runs on the
already-incremented size (7/8 > 0.8), so the claim as stated (gating on the
pre-call ratio) is false. -/
theorem c8_maturity_gate_cex :
    ((fernSixEights.size : ℚ) / (fernSixEights.size_max : ℚ) ≤ 4 / 5) ∧
    (fernSixEights.evolve (cellWithMoisture 5) oracleHit).map
      (fun r => r.1.offspring.length) = some 1 := by
  constructor
  · norm_num [fernSixEights, fernCore]
  · norm_num [Plant.evolve, Plant.biology, Plant.respire, Plant.agedOnce,
      Plant.grow, Plant.damage, Plant.propagate, Plant.sprout, Location.nearby,
      fernSixEights, fernCore, cellWithMoisture, oracleHit, checkedSubOr0]

/-- C8 amended: a Plant whose size ratio stays at most 0.8 even after this
tick's growth increment — (size + 1) / size_max ≤ 0.8, with size_max
positive — never adds offspring in evolve, for every random outcome: its
offspring buffer is left exactly as it was. -/
theorem c8_immature_no_offspring (p : Plant) (s : BoardSection) (o : Oracle)
    (hpos : 0 < p.size_max)
    (hq : ((p.size : ℚ) + 1) / (p.size_max : ℚ) ≤ 4 / 5) :
    ∃ r, p.evolve s o = some r ∧ r.1.offspring = p.offspring := by
  have hpos' : 0 < p.core.size_max := by simpa using hpos
  have hqz : 5 * (p.core.size + 1) ≤ 4 * p.core.size_max := by
    rw [div_le_div_iff₀ (by exact_mod_cast hpos') (by norm_num)] at hq
    have hq2 : ((p.core.size : ℚ) + 1) * 5 ≤ 4 * (p.core.size_max : ℚ) := by
      simpa using hq
    have hq3 : (p.core.size + 1) * 5 ≤ 4 * p.core.size_max := by exact_mod_cast hq2
    omega
  obtain ⟨q, t, hbio, hoff⟩ := biology_immature p s o hpos' hqz
  unfold Plant.evolve
  rw [hbio]
  dsimp only
  split
  · exact ⟨_, rfl, by simpa using hoff⟩
  · exact ⟨_, rfl, by simpa using hoff⟩

/-- C8 amended witness: a fresh Fern seedling (size 1 of 8) keeps its empty
offspring buffer. -/
theorem c8_immature_no_offspring_witness :
    ∃ r, fernSeedling.evolve (cellWithMoisture 5) oracleHit = some r ∧
      r.1.offspring = fernSeedling.offspring :=
  c8_immature_no_offspring fernSeedling (cellWithMoisture 5) oracleHit
    (by norm_num [fernSeedling, fernCore])
    (by norm_num [fernSeedling, fernCore])

theorem biology_snd_none (p : Plant) (s : BoardSection) (o : Oracle)
    (r : Plant × BoardSection × Option (List Plant)) (h : p.biology s o = some r) :
    r.2.2 = none := by
  unfold Plant.biology at h
  dsimp only at h
  repeat'
    first
    | (simp only [Option.some.injEq] at h; subst h; rfl)
    | exact Option.noConfusion h
    | split at h

theorem propagate_some (p : Plant) (o : Oracle) (num : Int)
    (hm : 1 ≤ p.core.location.max) (hx0 : 0 ≤ p.core.location.x)
    (hxm : p.core.location.x ≤ p.core.location.max)
    (hy0 : 0 ≤ p.core.location.y) (hym : p.core.location.y ≤ p.core.location.max)
    (hr : 1 ≤ p.core.offspring_range) :
    ∃ loc, p.propagate o num = some (List.replicate num.toNat (p.sprout loc)) := by
  have hpos : 0 < (if p.offspring_range = 1 then p.location.nearby
      else p.location.within_range p.offspring_range).length := by
    by_cases h1 : p.offspring_range = 1
    · rw [if_pos h1]
      exact nearby_length_pos _ hm hx0 hxm hy0 hym
    · rw [if_neg h1]
      exact within_range_length_pos _ _ hm hx0 hxm hy0 hym hr
  unfold Plant.propagate
  dsimp only
  rw [if_neg (by omega)]
  exact ⟨_, rfl⟩

theorem sprout_agedOnce_grow (p : Plant) (loc : Location) :
    ((p.agedOnce).grow).sprout loc = p.sprout loc := by
  simp [Plant.sprout]

theorem respire_mature (p1 : Plant) (s : BoardSection) (o : Oracle) (v : Int)
    (hreq : p1.core.requirements.moisture = Effect.Moisture v)
    (hmoist : v ≤ s.conditions.moisture)
    (hnf : p1.core.on_fire = false)
    (hpos : 0 < p1.core.size_max)
    (hmat : (4 : ℚ) / 5 < (p1.core.size : ℚ) / (p1.core.size_max : ℚ))
    (hm : 1 ≤ p1.core.location.max) (hx0 : 0 ≤ p1.core.location.x)
    (hxm : p1.core.location.x ≤ p1.core.location.max)
    (hy0 : 0 ≤ p1.core.location.y) (hym : p1.core.location.y ≤ p1.core.location.max)
    (hr : 1 ≤ p1.core.offspring_range) :
    ∃ q, p1.respire s o = some (q,
        { s with conditions := { s.conditions with
          moisture := s.conditions.moisture - v } }) ∧
      ((o.spawnRoll < p1.core.offspring_chance ∧
          ∃ loc, q.offspring = [(p1.grow).sprout loc]) ∨
        (¬o.spawnRoll < p1.core.offspring_chance ∧ q.offspring = [])) := by
  have hmat2 : (4 : ℚ) / 5 < ((p1.grow).size : ℚ) / ((p1.grow).size_max : ℚ) := by
    simp only [size_def, size_max_def, grow_core]
    refine lt_of_lt_of_le hmat ((div_le_div_iff_of_pos_right (by exact_mod_cast hpos)).mpr ?_)
    have hle : p1.core.size ≤
        (if p1.core.size < p1.core.size_max then p1.core.size + 1 else p1.core.size) := by
      split <;> omega
    exact_mod_cast hle
  unfold Plant.respire
  rw [show p1.requirements.moisture = Effect.Moisture v from by simpa using hreq]
  try dsimp only
  rw [if_pos ⟨hmoist, by simpa using hnf⟩]
  try dsimp only
  rw [if_pos hmat2]
  by_cases hroll : o.spawnRoll < (p1.grow).offspring_chance
  · rw [if_pos hroll]
    obtain ⟨loc, hprop⟩ := propagate_some (p1.grow) o 1 (by simpa using hm)
      (by simpa using hx0) (by simpa using hxm) (by simpa using hy0)
      (by simpa using hym) (by simpa using hr)
    rw [hprop]
    refine ⟨_, rfl, Or.inl ⟨by simpa using hroll, loc, ?_⟩⟩
    simp
  · rw [if_neg hroll]
    exact ⟨_, rfl, Or.inr ⟨by simpa using hroll, by simp⟩⟩

/-- C10: for a mature plant (size divided by size_max above 0.8) that is
alive, not on fire, within its age limit, in-range on the board, with a
kind-consistent positive offspring range, and with sufficient cell
moisture, evolve replaces the whole offspring buffer: after the call it is
exactly one fresh seedling when the reproduction roll succeeds and exactly
empty when it fails — previously buffered offspring are discarded either
way.  Moreover biology always returns None, so the append-returned-offspring
path of evolve never executes for any plant, cell or random outcome. -/
theorem c10_offspring_replaced (p : Plant) (s : BoardSection) (o : Oracle) (v : Int)
    (halive : 0 < p.health) (hnf : p.on_fire = false)
    (hage : p.age + 1 ≤ p.age_max)
    (hreq : p.requirements.moisture = Effect.Moisture v)
    (hmoist : v ≤ s.conditions.moisture)
    (hpos : 0 < p.size_max)
    (hmat : (4 : ℚ) / 5 < (p.size : ℚ) / (p.size_max : ℚ))
    (hm : 1 ≤ p.location.max) (hx0 : 0 ≤ p.location.x)
    (hxm : p.location.x ≤ p.location.max)
    (hy0 : 0 ≤ p.location.y) (hym : p.location.y ≤ p.location.max)
    (hr : 1 ≤ p.offspring_range) :
    (∀ (q : Plant) (t : BoardSection) (o2 : Oracle)
        (r : Plant × BoardSection × Option (List Plant)),
        q.biology t o2 = some r → r.2.2 = none) ∧
    ∃ p2 s2, p.evolve s o = some (p2, s2) ∧
      ((o.spawnRoll < p.offspring_chance ∧ ∃ loc, p2.offspring = [p.sprout loc]) ∨
        (¬o.spawnRoll < p.offspring_chance ∧ p2.offspring = [])) := by
  refine ⟨fun q t o2 r h => biology_snd_none q t o2 r h, ?_⟩
  simp only [health_def, on_fire_def, age_def, age_max_def, requirements_def,
    size_def, size_max_def, location_def,
    offspring_range_def] at halive hnf hage hreq hmat hpos hm hx0 hxm hy0 hym hr
  unfold Plant.evolve Plant.biology
  dsimp only
  rw [if_pos (by simp [halive])]
  rw [if_neg (by simp; omega)]
  rw [if_neg (by simp [hnf])]
  rw [if_neg (by simp [hnf])]
  obtain ⟨q, hresp, hcase⟩ := respire_mature (p.agedOnce) s o v (by simpa using hreq)
    hmoist (by simpa using hnf) (by simpa using hpos) (by simpa using hmat)
    (by simpa using hm) (by simpa using hx0) (by simpa using hxm)
    (by simpa using hy0) (by simpa using hym) (by simpa using hr)
  rw [hresp]
  dsimp only
  split
  · refine ⟨_, _, rfl, ?_⟩
    rcases hcase with ⟨hr1, loc, hoff⟩ | ⟨hr1, hoff⟩
    · exact Or.inl ⟨by simpa using hr1, loc, by
        simp only [withCore_offspring, hoff, sprout_agedOnce_grow]⟩
    · exact Or.inr ⟨by simpa using hr1, by simpa using hoff⟩
  · refine ⟨_, _, rfl, ?_⟩
    rcases hcase with ⟨hr1, loc, hoff⟩ | ⟨hr1, hoff⟩
    · exact Or.inl ⟨by simpa using hr1, loc, by
        simp only [hoff, sprout_agedOnce_grow]⟩
    · exact Or.inr ⟨by simpa using hr1, hoff⟩

/-- C10 witness: the mature fern at the interior of a 3x3 board with
sufficient moisture. -/
theorem c10_offspring_replaced_witness :
    (∀ (q : Plant) (t : BoardSection) (o2 : Oracle)
        (r : Plant × BoardSection × Option (List Plant)),
        q.biology t o2 = some r → r.2.2 = none) ∧
    ∃ p2 s2, fernMature.evolve (cellWithMoisture 5) oracleHit = some (p2, s2) ∧
      ((oracleHit.spawnRoll < fernMature.offspring_chance ∧
          ∃ loc, p2.offspring = [fernMature.sprout loc]) ∨
        (¬oracleHit.spawnRoll < fernMature.offspring_chance ∧ p2.offspring = [])) :=
  c10_offspring_replaced fernMature (cellWithMoisture 5) oracleHit 2
    (by norm_num [fernMature, fernCore]) (by norm_num [fernMature, fernCore])
    (by norm_num [fernMature, fernCore]) (by norm_num [fernMature, fernCore])
    (by norm_num [cellWithMoisture]) (by norm_num [fernMature, fernCore])
    (by norm_num [fernMature, fernCore]) (by norm_num [fernMature, fernCore])
    (by norm_num [fernMature, fernCore]) (by norm_num [fernMature, fernCore])
    (by norm_num [fernMature, fernCore]) (by norm_num [fernMature, fernCore])
    (by norm_num [fernMature, fernCore])

/-- C4: the claim says damage(amount) saturates health at zero.  Evaluating
the code at health 1 with damage 2 yields health -1: checked_sub only
returns None on i64 overflow, not on a negative result, so health goes
negative and does not equal max(0, old - amount). -/
theorem c4_damage_negative_eval :
    (fernSeedling.damage 2).health = -1 ∧
    (-1 : Int) ≠ max 0 (fernSeedling.health - 2) := by
  constructor
  · decide
  · decide

end Plantbox
